import Mathlib

/-!
Shallow embedding of the go-hidproxy input-to-HID proxy.

The definitions below translate the Go source (package main of
go-hidproxy) into Lean: the scancode translation table, the keyboard
key-state tracking and 8-byte boot-report construction of
`HandleKeyboard`, the button/motion encoding of `HandleMouse`, the
device-classification logic of `main`, the latency statistics of
`SendKeyboardReports`/`SendMouseReports`, the content-comparison step of
`SetupUSBGadget`, and the checkpointed cancellation loop shared by both
capture handlers.  Machine integers are modelled as `Nat`/`Int` with
explicit masking where the Go code truncates.
-/

namespace HidProxy

/-- Modifier bit constant from the Go const block: `RIGHT_META = 1 << 7`. -/
def RIGHT_META : Nat := 1 <<< 7

/-- Modifier bit constant: `RIGHT_ALT = 1 << 6`. -/
def RIGHT_ALT : Nat := 1 <<< 6

/-- Modifier bit constant: `RIGHT_SHIFT = 1 << 5`. -/
def RIGHT_SHIFT : Nat := 1 <<< 5

/-- Modifier bit constant: `RIGHT_CONTROL = 1 << 4`. -/
def RIGHT_CONTROL : Nat := 1 <<< 4

/-- Modifier bit constant: `LEFT_META = 1 << 3`. -/
def LEFT_META : Nat := 1 <<< 3

/-- Modifier bit constant: `LEFT_ALT = 1 << 2`. -/
def LEFT_ALT : Nat := 1 <<< 2

/-- Modifier bit constant: `LEFT_SHIFT = 1 << 1`. -/
def LEFT_SHIFT : Nat := 1 <<< 1

/-- Modifier bit constant: `LEFT_CONTROL = 1 << 0`. -/
def LEFT_CONTROL : Nat := 1 <<< 0

/-- Mouse button bit constant: `BUTTON_LEFT = 1 << 0`. -/
def BUTTON_LEFT : Nat := 1 <<< 0

/-- Mouse button bit constant: `BUTTON_RIGHT = 1 << 1`. -/
def BUTTON_RIGHT : Nat := 1 <<< 1

/-- Mouse button bit constant: `BUTTON_MIDDLE = 1 << 2`. -/
def BUTTON_MIDDLE : Nat := 1 <<< 2

/-- The `Scancodes` map of the source, as an association list in source
order (Go map literal):  raw input scancode to HID usage ID. -/
def Scancodes : List (Nat × Nat) :=
  [(2, 30), (3, 31), (4, 32), (5, 33), (6, 34), (7, 35), (8, 36), (9, 37),
   (10, 38), (11, 39), (57, 44), (14, 42), (28, 40), (1, 41), (106, 79),
   (105, 80), (108, 81), (103, 82), (59, 58), (60, 59), (61, 60), (62, 61),
   (63, 62), (64, 63), (65, 64), (66, 65), (67, 66), (68, 67), (69, 68),
   (70, 69), (12, 45), (13, 46), (15, 43), (26, 47), (27, 48), (39, 51),
   (40, 52), (51, 54), (52, 55), (53, 56), (41, 50), (43, 49), (30, 4),
   (48, 5), (46, 6), (32, 7), (18, 8), (33, 9), (34, 10), (35, 11), (23, 12),
   (36, 13), (37, 14), (38, 15), (50, 16), (49, 17), (24, 18), (25, 19),
   (16, 20), (19, 21), (31, 22), (20, 23), (22, 24), (47, 25), (17, 26),
   (45, 27), (21, 28), (44, 29), (86, 49), (104, 75), (109, 78), (102, 74),
   (107, 77), (110, 73), (119, 72), (99, 70), (87, 68), (88, 69), (113, 127),
   (114, 129), (115, 128), (58, 57), (158, 122), (159, 121), (29, 224),
   (125, 227), (42, 225), (56, 226), (100, 230), (127, 231), (97, 228),
   (54, 229)]

/-- Map lookup `Scancodes[keyEvent.Scancode]`: the usage for a raw
scancode, `none` when the scancode is not a key of the map. -/
def scancodeLookup (scancode : Nat) : Option Nat :=
  Scancodes.lookup scancode

/-- The `switch` inside the `keysDown` loop of `HandleKeyboard`:
the modifier bit a usage ORs into `modifiers`, or `none` for the
`default` branch (the usage goes into `keysToSend`). -/
def modifierBit (k : Nat) : Option Nat :=
  if k = 224 then some LEFT_CONTROL
  else if k = 227 then some LEFT_META
  else if k = 225 then some LEFT_SHIFT
  else if k = 226 then some LEFT_ALT
  else if k = 228 then some RIGHT_CONTROL
  else if k = 231 then some RIGHT_META
  else if k = 229 then some RIGHT_SHIFT
  else if k = 230 then some RIGHT_ALT
  else none

/-- The `for _, k := range keysDown` loop of `HandleKeyboard`: folds the
current key state into the modifier byte and the list of non-modifier
usages to send, in iteration order. -/
def buildKeysLoop : List Nat → Nat → List Nat → Nat × List Nat
  | [], modifiers, keysToSend => (modifiers, keysToSend)
  | k :: rest, modifiers, keysToSend =>
    match modifierBit k with
    | some b => buildKeysLoop rest (modifiers ||| b) keysToSend
    | none => buildKeysLoop rest modifiers (keysToSend ++ [k])

/-- Report construction of `HandleKeyboard`: prepend `[modifiers, 0]` to
the non-modifier usages, then pad with zero bytes while the length is
below 8 (the source pads only when `len(keysToSend) < 8`). -/
def buildReport (keysDown : List Nat) : List Nat :=
  let p := buildKeysLoop keysDown 0 []
  let keysToSend := [p.1, 0] ++ p.2
  if keysToSend.length < 8 then
    keysToSend ++ List.replicate (8 - keysToSend.length) 0
  else
    keysToSend

/-- The `EV_KEY` branch of `HandleKeyboard` for one key event with raw
scancode and state (1 = down, 0 = up): updates `keysDown` (append when
down and not already present; filter out when up), and returns the
report enqueued for the event, or `none` for an unknown scancode. -/
def handleKeyEvent (keysDown : List Nat) (scancode state : Nat) :
    List Nat × Option (List Nat) :=
  match scancodeLookup scancode with
  | some keyCode =>
    let kd1 :=
      if state = 1 then
        if keysDown.contains keyCode then keysDown else keysDown ++ [keyCode]
      else keysDown
    let kd2 :=
      if state = 0 then kd1.filter (fun k => k ≠ keyCode) else kd1
    (kd2, some (buildReport kd2))
  | none => (keysDown, none)

/-- Runs a sequence of key events through `handleKeyEvent`, returning the
final key state and the reports enqueued, in order. -/
def runKeyboard : List (Nat × Nat) → List Nat → List Nat × List (List Nat)
  | [], keysDown => (keysDown, [])
  | e :: rest, keysDown =>
    let step := handleKeyEvent keysDown e.1 e.2
    let next := runKeyboard rest step.1
    (next.1, (step.2.toList) ++ next.2)

example : (runKeyboard [(30, 1)] []).2 = [[0, 0, 4, 0, 0, 0, 0, 0]] := by decide

example : (runKeyboard [(30, 1), (30, 0)] []).2 =
    [[0, 0, 4, 0, 0, 0, 0, 0], [0, 0, 0, 0, 0, 0, 0, 0]] := by decide

example : (runKeyboard [(42, 1), (30, 1)] []).2 =
    [[2, 0, 0, 0, 0, 0, 0, 0], [2, 0, 4, 0, 0, 0, 0, 0]] := by decide

example :
    (runKeyboard [(30, 1), (48, 1), (46, 1), (32, 1), (18, 1), (33, 1), (34, 1)]
      []).2.getLast? = some [0, 0, 4, 5, 6, 7, 8, 9, 10] := by decide

/-- evdev event-type constant `EV_KEY = 0x01`. -/
def EV_KEY : Nat := 1

/-- evdev event-type constant `EV_REL = 0x02`. -/
def EV_REL : Nat := 2

/-- One raw input event as `HandleMouse` reads it: type, code and a
signed 32-bit value. -/
structure MouseEvent where
  type : Nat
  code : Nat
  value : Int
deriving DecidableEq

/-- Go conversion `uint8(event.Value)`: the low byte of the signed value
in two-complement form. -/
def toByte (v : Int) : Nat := (v % 256).toNat

/-- The body of the `HandleMouse` loop for one event: the three button
`if` blocks update the `buttons` bitmask and set `buttonOp`; a relative
event or a button operation builds and enqueues the report, whose axis
bytes come from the `event.Code` branches (0 = X, 1 = Y, 11 = wheel). -/
def handleMouseEvent (buttons : Nat) (e : MouseEvent) : Nat × Option (List Nat) :=
  let s1 :=
    if e.type = EV_KEY ∧ e.code = 272 then
      ((if e.value > 0 then buttons ||| BUTTON_LEFT
        else buttons &&& (255 ^^^ BUTTON_LEFT)), true)
    else (buttons, false)
  let s2 :=
    if e.type = EV_KEY ∧ e.code = 273 then
      ((if e.value > 0 then s1.1 ||| BUTTON_RIGHT
        else s1.1 &&& (255 ^^^ BUTTON_RIGHT)), true)
    else s1
  let s3 :=
    if e.type = EV_KEY ∧ e.code = 274 then
      ((if e.value > 0 then s2.1 ||| BUTTON_MIDDLE
        else s2.1 &&& (255 ^^^ BUTTON_MIDDLE)), true)
    else s2
  if e.type = EV_REL ∨ s3.2 = true then
    let report :=
      if e.type = EV_REL then
        [s3.1]
          ++ (if e.code = 0 then [toByte e.value, 0, 0] else [])
          ++ (if e.code = 1 then [0, toByte e.value, 0] else [])
          ++ (if e.code = 11 then [0, 0, toByte e.value] else [])
      else [s3.1, 0, 0, 0]
    (s3.1, some report)
  else (s3.1, none)

example : handleMouseEvent 0 ⟨1, 272, 1⟩ = (1, some [1, 0, 0, 0]) := by decide

example : handleMouseEvent 1 ⟨1, 272, 0⟩ = (0, some [0, 0, 0, 0]) := by decide

example : handleMouseEvent 0 ⟨2, 0, 5⟩ = (0, some [0, 5, 0, 0]) := by decide

example : handleMouseEvent 0 ⟨2, 8, 1⟩ = (0, some [0]) := by decide

/-- One step of the capability scan in `main`: `isMouse` becomes true on
a capability named `EV_REL`, `isKeyboard` on one named `EV_KEY`.  The
pair is `(isMouse, isKeyboard)` in declaration order. -/
def classifyStep (acc : Bool × Bool) (k : String) : Bool × Bool :=
  ((if k = ("EV_REL") then true else acc.1),
   (if k = ("EV_KEY") then true else acc.2))

/-- The `for k := range dev.Capabilities` classification loop of `main`:
returns `(isMouse, isKeyboard)` for a device's capability names. -/
def classifyDevice (caps : List String) : Bool × Bool :=
  caps.foldl classifyStep (false, false)

/-- The guard `isKeyboard && !isMouse && *setupKeyboard` under which
`main` starts `HandleKeyboard` for a device. -/
def startsKeyboardHandler (isKeyboard isMouse setupKeyboard : Bool) : Bool :=
  isKeyboard && !isMouse && setupKeyboard

/-- The guard `isMouse && *setupMouse` under which `main` starts
`HandleMouse` for a device. -/
def startsMouseHandler (isMouse setupMouse : Bool) : Bool :=
  isMouse && setupMouse

example :
    startsKeyboardHandler (classifyDevice [("EV_KEY"), ("EV_REL")]).2
      (classifyDevice [("EV_KEY"), ("EV_REL")]).1 true = false := by decide

example :
    startsMouseHandler (classifyDevice [("EV_KEY"), ("EV_REL")]).1 true = true := by
  decide

/-- One iteration of the latency bookkeeping in `SendKeyboardReports` /
`SendMouseReports`: the running state is `(avg, min, max)`, updated as
`if latency < min`, `if latency > max`, `avg = (avg + latency) / 2`
(Go `int64` division truncates toward zero). -/
def statsStep (s : Int × Int × Int) (latency : Int) : Int × Int × Int :=
  ((Int.tdiv (s.1 + latency) 2),
   (if latency < s.2.1 then latency else s.2.1),
   (if latency > s.2.2 then latency else s.2.2))

/-- The report writer's statistics over a sequence of latencies, from the
initial `var avg, min, max int64 = 0, 0, 0`. -/
def runStats (latencies : List Int) : Int × Int × Int :=
  latencies.foldl statsStep (0, 0, 0)

example : runStats [5] = (2, 0, 5) := by decide

/-- Go slice expression `s[low:high]` on a byte list: `none` models the
slice-bounds panic (when `high < low` or `high > len(s)`). -/
def goSlice (l : List Nat) (low : Nat) (high : Int) : Option (List Nat) :=
  if (low : Int) ≤ high ∧ high ≤ (l.length : Int) then
    some ((l.take high.toNat).drop low)
  else none

/-- The content-comparison step of `SetupUSBGadget` for a string-valued
gadget file (and for the UDC file): after a successful read it compares
`content[0:len(content)-1]` with the desired value; `none` models the
slice-bounds panic of that expression. -/
def gadgetContentMatches (content want : List Nat) : Option Bool :=
  (goSlice content 0 ((content.length : Int) - 1)).map (fun trimmed => trimmed == want)

example : gadgetContentMatches [] [48] = none := by decide

example : gadgetContentMatches [48, 10] [48] = some true := by decide

/-- Non-blocking receive on the cancellation channel (`select` with
`default`), at a checkpoint reached after `n` processed events: the
signal is seen iff it was delivered at or before event `n`. -/
def signalPresent (cancelAt : Option Nat) (n : Nat) : Bool :=
  match cancelAt with
  | some d => d ≤ n
  | none => false

/-- The capture-handler loop shared by `HandleKeyboard` and
`HandleMouse`, over the sequence of successfully read events: `proc`
is the per-event body (state update plus the report enqueued, if any),
`loopCtr` the `loop` counter, `n` the number of events processed so far.
After each event `loop` is incremented; when `loop > 3` the handler
non-blockingly checks the cancellation channel — on a delivered signal
it sends `nil` on its outcome channel and returns, otherwise it resets
`loop` to 0 and continues.  The result is (reports enqueued, outcome
values sent, total events processed). -/
def runLoop {σ ε : Type} (proc : σ → ε → σ × Option (List Nat)) (cancelAt : Option Nat) :
    List ε → σ → Nat → Nat → List (List Nat) × List (Option Unit) × Nat
  | [], _, _, n => ([], [], n)
  | e :: rest, s, loopCtr, n =>
    if loopCtr + 1 > 3 then
      if signalPresent cancelAt (n + 1) then
        ((proc s e).2.toList, [none], n + 1)
      else
        ((proc s e).2.toList ++ (runLoop proc cancelAt rest (proc s e).1 0 (n + 1)).1,
         (runLoop proc cancelAt rest (proc s e).1 0 (n + 1)).2.1,
         (runLoop proc cancelAt rest (proc s e).1 0 (n + 1)).2.2)
    else
      ((proc s e).2.toList ++ (runLoop proc cancelAt rest (proc s e).1 (loopCtr + 1) (n + 1)).1,
       (runLoop proc cancelAt rest (proc s e).1 (loopCtr + 1) (n + 1)).2.1,
       (runLoop proc cancelAt rest (proc s e).1 (loopCtr + 1) (n + 1)).2.2)

/-- The handler loop from its start: `loop = 0` and no event processed. -/
def runHandlerLoop {σ ε : Type} (proc : σ → ε → σ × Option (List Nat))
    (cancelAt : Option Nat) (events : List ε) (s : σ) :
    List (List Nat) × List (Option Unit) × Nat :=
  runLoop proc cancelAt events s 0 0

/-- The reports a sequence of events makes the handler enqueue,
ignoring cancellation: the per-event bodies chained in order. -/
def emitted {σ ε : Type} (proc : σ → ε → σ × Option (List Nat)) : σ → List ε → List (List Nat)
  | _, [] => []
  | s, e :: rest => (proc s e).2.toList ++ emitted proc (proc s e).1 rest

/-- The per-event body of `HandleKeyboard` as a loop body: an event is a
(scancode, state) pair. -/
def keyboardStep (s : List Nat) (e : Nat × Nat) : List Nat × Option (List Nat) :=
  handleKeyEvent s e.1 e.2

example :
    (runHandlerLoop keyboardStep (some 0) [(30, 1), (30, 0), (30, 1), (30, 0)]
      ([] : List Nat)).2.1 = [none] := by decide

example :
    (runHandlerLoop keyboardStep none [(30, 1), (30, 0), (30, 1), (30, 0)]
      ([] : List Nat)).2.1 = [] := by decide

lemma classify_foldl (caps : List String) :
    ∀ p : Bool × Bool,
      (caps.foldl classifyStep p).1 = (p.1 || caps.contains ("EV_REL"))
      ∧ (caps.foldl classifyStep p).2 = (p.2 || caps.contains ("EV_KEY")) := by
  induction caps with
  | nil => intro p; simp
  | cons k rest ih =>
    intro p
    have h := ih (classifyStep p k)
    refine ⟨?_, ?_⟩
    · rw [List.foldl_cons, h.1]
      by_cases hk : k = ("EV_REL")
      · simp [classifyStep, hk, List.contains_cons, Bool.or_assoc]
      · simp [classifyStep, hk, Ne.symm hk, List.contains_cons, Bool.or_assoc]
    · rw [List.foldl_cons, h.2]
      by_cases hk : k = ("EV_KEY")
      · simp [classifyStep, hk, List.contains_cons, Bool.or_assoc]
      · simp [classifyStep, hk, Ne.symm hk, List.contains_cons, Bool.or_assoc]

/-- C2 (counterexample): a device advertising both `EV_KEY` and `EV_REL`
capability, with keyboard and mouse capture enabled, is not handled as
keyboard-only: the keyboard guard is false and the mouse guard is true,
refuting the claimed classification at this concrete device. -/
theorem both_capability_device_counterexample :
    ¬ (startsKeyboardHandler (classifyDevice [("EV_KEY"), ("EV_REL")]).2
         (classifyDevice [("EV_KEY"), ("EV_REL")]).1 true = true
       ∧ startsMouseHandler (classifyDevice [("EV_KEY"), ("EV_REL")]).1 true = false) := by
  decide

/-- C2 (amended): a device whose capability bits include both key events
and relative motion is treated as mouse-only: with mouse capture enabled
`main` starts `HandleMouse` for it, and the `HandleKeyboard` guard is
false whatever the keyboard flag, because `isKeyboard && !isMouse` fails. -/
theorem both_capability_device_starts_mouse_only (caps : List String) (setupKeyboard : Bool)
    (_hkey : caps.contains ("EV_KEY") = true) (hrel : caps.contains ("EV_REL") = true) :
    startsKeyboardHandler (classifyDevice caps).2 (classifyDevice caps).1 setupKeyboard = false
    ∧ startsMouseHandler (classifyDevice caps).1 true = true := by
  have h := classify_foldl caps (false, false)
  have h1 : (classifyDevice caps).1 = true := by
    unfold classifyDevice
    rw [h.1, hrel]
    rfl
  exact ⟨by simp [startsKeyboardHandler, h1], by simp [startsMouseHandler, h1]⟩

/-- C2 (witness): the amended classification at the concrete device with
capabilities `EV_KEY` and `EV_REL` and both capture flags enabled. -/
theorem both_capability_device_starts_mouse_only_witness :
    startsKeyboardHandler (classifyDevice [("EV_KEY"), ("EV_REL")]).2
      (classifyDevice [("EV_KEY"), ("EV_REL")]).1 true = false
    ∧ startsMouseHandler (classifyDevice [("EV_KEY"), ("EV_REL")]).1 true = true :=
  both_capability_device_starts_mouse_only [("EV_KEY"), ("EV_REL")] true (by decide)
    (by decide)

/-- C4: scenario A — scancode 30 down then up from the empty key state
enqueues `[0,0,4,0,0,0,0,0]` then the all-zero report — and scenario B —
with left shift (scancode 42) already down, scancode 30 down enqueues
`[2,0,4,0,0,0,0,0]`. -/
theorem keyboard_scenarios_a_b :
    (runKeyboard [(30, 1), (30, 0)] []).2
      = [[0, 0, 4, 0, 0, 0, 0, 0], [0, 0, 0, 0, 0, 0, 0, 0]]
    ∧ (handleKeyEvent (handleKeyEvent [] 42 1).1 30 1).2
      = some [2, 0, 4, 0, 0, 0, 0, 0] := by decide

/-- C5: scenario C — left-button press with no motion enqueues
`[1,0,0,0]` and the release `[0,0,0,0]` — and scenario D — relative X
motion of 5 with no buttons held enqueues `[0,5,0,0]`. -/
theorem mouse_scenarios_c_d :
    handleMouseEvent 0 ⟨EV_KEY, 272, 1⟩ = (1, some [1, 0, 0, 0])
    ∧ handleMouseEvent 1 ⟨EV_KEY, 272, 0⟩ = (0, some [0, 0, 0, 0])
    ∧ handleMouseEvent 0 ⟨EV_REL, 0, 5⟩ = (0, some [0, 5, 0, 0]) := by decide

/-- C1 (at the failing input): with the seven non-modifier keys of
scancodes 30, 48, 46, 32, 18, 33, 34 simultaneously down, the report the
handler enqueues is the 9-byte `[0,0,4,5,6,7,8,9,10]` — the key state is
not truncated to 6 slots and the report is not 8 bytes, since the source
only pads when `len(keysToSend) < 8`. -/
theorem keyboard_seven_keys_nine_byte_report :
    (runKeyboard [(30, 1), (48, 1), (46, 1), (32, 1), (18, 1), (33, 1), (34, 1)]
      []).2.getLast? = some [0, 0, 4, 5, 6, 7, 8, 9, 10]
    ∧ ((runKeyboard [(30, 1), (48, 1), (46, 1), (32, 1), (18, 1), (33, 1), (34, 1)]
        []).2.getLast?).map List.length ≠ some 8 := by decide

/-- C3 (at the failing input): a relative-motion event whose code is 8
(`REL_WHEEL`) matches none of the axis branches (0, 1, 11), so the
handler enqueues the 1-byte report `[buttons]` instead of a 4-byte
frame. -/
theorem mouse_unknown_axis_one_byte_report :
    handleMouseEvent 0 ⟨EV_REL, 8, 1⟩ = (0, some [0])
    ∧ ((handleMouseEvent 0 ⟨EV_REL, 8, 1⟩).2.map List.length) ≠ some 4 := by decide

/-- C9: when a string-valued gadget file (or the UDC file) reads back as
zero bytes, the comparison `content[0:len(content)-1]` slices with a
negative upper bound — the step panics (`none`) for every desired value
instead of comparing and rewriting. -/
theorem gadget_empty_content_panics (want : List Nat) :
    gadgetContentMatches [] want = none := rfl

lemma if_lt_eq_min (l mn : Int) : (if l < mn then l else mn) = min mn l := by
  rw [min_def]
  split_ifs <;> omega

lemma if_gt_eq_max (l mx : Int) : (if l > mx then l else mx) = max mx l := by
  rw [max_def]
  split_ifs <;> omega

lemma runStats_foldl (ls : List Int) : ∀ a mn mx : Int,
    ls.foldl statsStep (a, mn, mx)
      = (ls.foldl (fun x l => Int.tdiv (x + l) 2) a, ls.foldl min mn, ls.foldl max mx) := by
  induction ls with
  | nil => intro a mn mx; rfl
  | cons l rest ih =>
    intro a mn mx
    simp only [List.foldl_cons, statsStep]
    rw [ih, if_lt_eq_min, if_gt_eq_max]

/-- C8 (counterexample): after the single latency 5 the stored minimum
is still the initial 0, not the minimum 5 of the observed latencies. -/
theorem latency_min_counterexample :
    (runStats [5]).2.1 = 0 ∧ (runStats [5]).2.1 ≠ 5 := by decide

/-- C8 (amended): the writer's statistics start from
`avg, min, max = 0, 0, 0`, so after any latency sequence the stored
minimum is the minimum of 0 and the observed latencies, the stored
maximum the maximum of 0 and the observed latencies, and the average
follows the recurrence `avg = (avg + latency) / 2` with truncating
division. -/
theorem latency_stats_amended (ls : List Int) :
    (runStats ls).1 = ls.foldl (fun x l => Int.tdiv (x + l) 2) 0
    ∧ (runStats ls).2.1 = ls.foldl min 0
    ∧ (runStats ls).2.2 = ls.foldl max 0 := by
  unfold runStats
  rw [runStats_foldl]
  exact ⟨rfl, rfl, rfl⟩

lemma handleKeyEvent_report_eq (kd0 : List Nat) (sc0 v0 : Nat) (kd r0 : List Nat)
    (h : handleKeyEvent kd0 sc0 v0 = (kd, some r0)) : r0 = buildReport kd := by
  unfold handleKeyEvent at h
  cases hl : scancodeLookup sc0 with
  | none =>
    rw [hl] at h
    simp at h
  | some m0 =>
    rw [hl] at h
    simp only [Prod.mk.injEq, Option.some.injEq] at h
    rw [← h.1]
    exact h.2.symm

/-- C10: a key event whose scancode is in the translation table but whose
state is neither down (1) nor up (0) — auto-repeat state 2, say — leaves
the key state unchanged yet still rebuilds and enqueues the report of the
unchanged state; whenever the previous event enqueued a report and left
this same state, the repeat event's report is byte-for-byte identical to
it. -/
theorem repeat_event_duplicate_report (kd : List Nat) (sc v m : Nat)
    (hsc : scancodeLookup sc = some m) (h0 : v ≠ 0) (h1 : v ≠ 1) :
    handleKeyEvent kd sc v = (kd, some (buildReport kd))
    ∧ ∀ kd0 sc0 v0 r0, handleKeyEvent kd0 sc0 v0 = (kd, some r0) →
        (handleKeyEvent kd sc v).2 = some r0 := by
  have hmain : handleKeyEvent kd sc v = (kd, some (buildReport kd)) := by
    unfold handleKeyEvent
    rw [hsc]
    simp [h0, h1]
  refine ⟨hmain, ?_⟩
  intro kd0 sc0 v0 r0 hprev
  rw [hmain, handleKeyEvent_report_eq kd0 sc0 v0 kd r0 hprev]

/-- C10 (witness): with usage 4 down (scancode 30 pressed), an
auto-repeat event (state 2) for scancode 30 re-enqueues the report of the
unchanged state, identical to any report that previously left this state. -/
theorem repeat_event_duplicate_report_witness :
    handleKeyEvent [4] 30 2 = ([4], some (buildReport [4]))
    ∧ ∀ kd0 sc0 v0 r0, handleKeyEvent kd0 sc0 v0 = ([4], some r0) →
        (handleKeyEvent [4] 30 2).2 = some r0 :=
  repeat_event_duplicate_report [4] 30 2 4 (by decide) (by decide) (by decide)

/-- The modifier byte the `keysDown` loop computes for a key state. -/
def modByte (kd : List Nat) : Nat := (buildKeysLoop kd 0 []).1

/-- The non-modifier usages the `keysDown` loop collects for the key
slots of the report. -/
def slotKeys (kd : List Nat) : List Nat := (buildKeysLoop kd 0 []).2

/-- The usage/bit pairs of the eight modifier cases of the `switch`, in
source order. -/
def modList : List (Nat × Nat) :=
  [(224, LEFT_CONTROL), (227, LEFT_META), (225, LEFT_SHIFT), (226, LEFT_ALT),
   (228, RIGHT_CONTROL), (231, RIGHT_META), (229, RIGHT_SHIFT), (230, RIGHT_ALT)]

lemma modifierBit_mem_modList {m b : Nat} (h : modifierBit m = some b) :
    (m, b) ∈ modList := by
  unfold modifierBit at h
  split_ifs at h with h1 h2 h3 h4 h5 h6 h7 h8 <;> simp_all [modList]

lemma modList_single_bit : ∀ p ∈ modList, p.2 ∈ [1, 2, 4, 8, 16, 32, 64, 128] := by
  decide

lemma modList_usage_bit_iff :
    ∀ p ∈ modList, ∀ q ∈ modList, (p.1 = q.1 ↔ p.2 = q.2) := by decide

lemma modList_bits_disjoint :
    ∀ p ∈ modList, ∀ q ∈ modList, p.1 ≠ q.1 → p.2 &&& q.2 = 0 := by decide

lemma buildKeysLoop_acc (l : List Nat) :
    ∀ m ks, buildKeysLoop l m ks = (m ||| modByte l, ks ++ slotKeys l) := by
  induction l with
  | nil =>
    intro m ks
    simp [buildKeysLoop, modByte, slotKeys]
  | cons k rest ih =>
    intro m ks
    unfold modByte slotKeys
    cases hmb : modifierBit k with
    | some bk =>
      simp only [buildKeysLoop, hmb]
      rw [ih (m ||| bk) ks, ih (0 ||| bk) []]
      simp [Nat.or_assoc]
    | none =>
      simp only [buildKeysLoop, hmb]
      rw [ih m (ks ++ [k]), ih 0 ([] ++ [k])]
      simp

lemma modByte_cons (k : Nat) (rest : List Nat) :
    modByte (k :: rest) = ((modifierBit k).getD 0) ||| modByte rest := by
  cases hmb : modifierBit k with
  | some bk =>
    unfold modByte
    simp only [buildKeysLoop, hmb, Option.getD_some]
    rw [buildKeysLoop_acc rest (0 ||| bk) []]
    simp [modByte]
  | none =>
    unfold modByte
    simp only [buildKeysLoop, hmb, Option.getD_none]
    rw [buildKeysLoop_acc rest 0 ([] ++ [k])]
    simp [modByte]

lemma slotKeys_cons (k : Nat) (rest : List Nat) :
    slotKeys (k :: rest) =
      (match modifierBit k with | some _ => [] | none => [k]) ++ slotKeys rest := by
  cases hmb : modifierBit k with
  | some bk =>
    unfold slotKeys
    simp only [buildKeysLoop, hmb]
    rw [buildKeysLoop_acc rest (0 ||| bk) []]
    simp [slotKeys]
  | none =>
    unfold slotKeys
    simp only [buildKeysLoop, hmb]
    rw [buildKeysLoop_acc rest 0 ([] ++ [k])]
    simp [slotKeys]

lemma modByte_append (l1 l2 : List Nat) :
    modByte (l1 ++ l2) = modByte l1 ||| modByte l2 := by
  induction l1 with
  | nil =>
    simp [modByte, buildKeysLoop]
  | cons k rest ih =>
    rw [List.cons_append, modByte_cons, ih, modByte_cons, Nat.or_assoc]

lemma slotKeys_nonmodifier (kd : List Nat) :
    ∀ u ∈ slotKeys kd, modifierBit u = none := by
  induction kd with
  | nil =>
    intro u hu
    simp [slotKeys, buildKeysLoop] at hu
  | cons k rest ih =>
    intro u hu
    rw [slotKeys_cons] at hu
    cases hmb : modifierBit k with
    | some bk =>
      rw [hmb] at hu
      exact ih u (by simpa using hu)
    | none =>
      rw [hmb] at hu
      rcases List.mem_append.mp hu with h | h
      · rw [List.mem_singleton.mp h]
        exact hmb
      · exact ih u h

lemma in_range_modifierBit_isSome (u : Nat) (h1 : 224 ≤ u) (h2 : u ≤ 231) :
    (modifierBit u).isSome = true := by
  interval_cases u <;> decide

lemma buildReport_as_pad (kd : List Nat) :
    buildReport kd =
      if ([modByte kd, 0] ++ slotKeys kd).length < 8 then
        ([modByte kd, 0] ++ slotKeys kd)
          ++ List.replicate (8 - ([modByte kd, 0] ++ slotKeys kd).length) 0
      else [modByte kd, 0] ++ slotKeys kd := rfl

lemma buildReport_drop_two (kd : List Nat) :
    (buildReport kd).drop 2 =
      slotKeys kd ++ List.replicate (8 - (2 + (slotKeys kd).length)) 0 := by
  rw [buildReport_as_pad]
  have hlen : ([modByte kd, 0] ++ slotKeys kd).length = 2 + (slotKeys kd).length := by
    simp [List.length_append]
    omega
  by_cases h : ([modByte kd, 0] ++ slotKeys kd).length < 8
  · rw [if_pos h]
    show slotKeys kd ++ List.replicate (8 - ([modByte kd, 0] ++ slotKeys kd).length) 0
      = slotKeys kd ++ List.replicate (8 - (2 + (slotKeys kd).length)) 0
    rw [hlen]
  · rw [if_neg h]
    have h0 : 8 - (2 + (slotKeys kd).length) = 0 := by omega
    rw [h0]
    show slotKeys kd = slotKeys kd ++ []
    rw [List.append_nil]

lemma buildReport_headD (kd : List Nat) : (buildReport kd).headD 0 = modByte kd := by
  rw [buildReport_as_pad]
  by_cases h : ([modByte kd, 0] ++ slotKeys kd).length < 8
  · rw [if_pos h]; rfl
  · rw [if_neg h]; rfl

lemma lor_land_of_land_eq (g X b : Nat) (h : X &&& b = b) : (g ||| X) &&& b = b := by
  apply Nat.eq_of_testBit_eq
  intro i
  have hX := congrArg (fun n => Nat.testBit n i) h
  simp only [Nat.testBit_and] at hX
  simp only [Nat.testBit_and, Nat.testBit_or]
  cases hg : g.testBit i <;> cases hx : X.testBit i <;> cases hb : b.testBit i <;>
    simp_all

lemma lor_land_eq_zero (g Y b : Nat) (hg : g &&& b = 0) (hY : Y &&& b = 0) :
    (g ||| Y) &&& b = 0 := by
  apply Nat.eq_of_testBit_eq
  intro i
  have hg2 := congrArg (fun n => Nat.testBit n i) hg
  simp only [Nat.testBit_and, Nat.zero_testBit] at hg2
  have hY2 := congrArg (fun n => Nat.testBit n i) hY
  simp only [Nat.testBit_and, Nat.zero_testBit] at hY2
  simp only [Nat.testBit_and, Nat.testBit_or, Nat.zero_testBit]
  cases hgi : g.testBit i <;> cases hyi : Y.testBit i <;> cases hbi : b.testBit i <;>
    simp_all

lemma getD_modifierBit_land (k m b : Nat) (hb : modifierBit m = some b) (hk : k ≠ m) :
    ((modifierBit k).getD 0) &&& b = 0 := by
  cases hmb : modifierBit k with
  | none => simp
  | some bk =>
    have h1 := modifierBit_mem_modList hmb
    have h2 := modifierBit_mem_modList hb
    simpa using modList_bits_disjoint (k, bk) h1 (m, b) h2 (by simpa using hk)

lemma modByte_land_of_mem (kd : List Nat) (m b : Nat) (hm : m ∈ kd)
    (hb : modifierBit m = some b) : modByte kd &&& b = b := by
  induction kd with
  | nil => cases hm
  | cons k rest ih =>
    rw [modByte_cons]
    rcases List.mem_cons.mp hm with rfl | hmem
    · rw [hb]
      simp only [Option.getD_some]
      rw [Nat.or_comm]
      exact lor_land_of_land_eq _ _ _ (Nat.and_self b)
    · exact lor_land_of_land_eq _ _ _ (ih hmem)

lemma modByte_filter_spec (kd : List Nat) (m b : Nat) (hb : modifierBit m = some b) :
    modByte (kd.filter fun k => k ≠ m) &&& b = 0
    ∧ modByte (kd.filter fun k => k ≠ m) ||| b = modByte kd ||| b := by
  induction kd with
  | nil => simp [modByte, buildKeysLoop]
  | cons k rest ih =>
    by_cases hk : k = m
    · subst hk
      rw [List.filter_cons_of_neg (by simp), modByte_cons, hb]
      simp only [Option.getD_some]
      refine ⟨ih.1, ?_⟩
      rw [ih.2, Nat.or_comm b (modByte rest), Nat.or_assoc, Nat.or_self]
    · rw [List.filter_cons_of_pos (by simp [hk]), modByte_cons, modByte_cons]
      refine ⟨?_, ?_⟩
      · exact lor_land_eq_zero _ _ _ (getD_modifierBit_land k m b hb hk) ih.1
      · rw [Nat.or_assoc, Nat.or_assoc, ih.2]

lemma handleKeyEvent_down_state (kd : List Nat) (sc m : Nat)
    (hsc : scancodeLookup sc = some m) :
    handleKeyEvent kd sc 1 =
      ((if kd.contains m then kd else kd ++ [m]),
       some (buildReport (if kd.contains m then kd else kd ++ [m]))) := by
  unfold handleKeyEvent
  rw [hsc]
  simp

lemma handleKeyEvent_up_state (kd : List Nat) (sc m : Nat)
    (hsc : scancodeLookup sc = some m) :
    handleKeyEvent kd sc 0 =
      (kd.filter (fun k => k ≠ m),
       some (buildReport (kd.filter (fun k => k ≠ m)))) := by
  unfold handleKeyEvent
  rw [hsc]
  simp

lemma modByte_singleton (m b : Nat) (hb : modifierBit m = some b) :
    modByte [m] = b := by
  rw [modByte_cons, hb]
  simp [modByte, buildKeysLoop]

/-- C6: modifier usages 224–231 never appear in the key-slot bytes
(positions 2 and up) of any report built from a key state; the usage of a
modifier key maps to exactly one single-bit modifier value and no two
distinct modifier usages share a bit; a modifier key-down sets its bit in
the enqueued report's first byte, and the matching key-up clears exactly
that bit and no other — the modifier byte after the key-up has bit `b`
cleared and agrees with the byte before the key-up on every other bit. -/
theorem modifier_usage_report_spec (kd : List Nat) (sc m b : Nat)
    (hsc : scancodeLookup sc = some m) (hb : modifierBit m = some b) :
    (∀ u ∈ (buildReport kd).drop 2, ¬(224 ≤ u ∧ u ≤ 231))
    ∧ b ∈ [1, 2, 4, 8, 16, 32, 64, 128]
    ∧ (∀ m2 b2, modifierBit m2 = some b2 → (m2 = m ↔ b2 = b))
    ∧ ((handleKeyEvent kd sc 1).2.map fun r => r.headD 0 &&& b) = some b
    ∧ ((handleKeyEvent kd sc 0).2.map fun r => r.headD 0 &&& b) = some 0
    ∧ modByte ((handleKeyEvent kd sc 0).1) ||| b = modByte kd ||| b := by
  have hmem := modifierBit_mem_modList hb
  refine ⟨?_, ?_, ?_, ?_, ?_, ?_⟩
  · intro u hu hrange
    rw [buildReport_drop_two] at hu
    rcases List.mem_append.mp hu with h | h
    · have hns := slotKeys_nonmodifier kd u h
      have hs := in_range_modifierBit_isSome u hrange.1 hrange.2
      rw [hns] at hs
      simp at hs
    · have hz := List.eq_of_mem_replicate h
      omega
  · simpa using modList_single_bit (m, b) hmem
  · intro m2 b2 h2
    have hmem2 := modifierBit_mem_modList h2
    simpa using modList_usage_bit_iff (m2, b2) hmem2 (m, b) hmem
  · rw [handleKeyEvent_down_state kd sc m hsc]
    simp only [Option.map_some', Option.some.injEq]
    rw [buildReport_headD]
    by_cases hc : kd.contains m
    · rw [if_pos hc]
      exact modByte_land_of_mem kd m b (List.mem_of_elem_eq_true hc) hb
    · rw [if_neg hc, modByte_append, modByte_singleton m b hb]
      exact lor_land_of_land_eq _ _ _ (Nat.and_self b)
  · rw [handleKeyEvent_up_state kd sc m hsc]
    simp only [Option.map_some', Option.some.injEq]
    rw [buildReport_headD]
    exact (modByte_filter_spec kd m b hb).1
  · rw [handleKeyEvent_up_state kd sc m hsc]
    exact (modByte_filter_spec kd m b hb).2

/-- C6 (witness): the modifier properties at left shift — scancode 42,
usage 225, bit 2 — over the key state with usage 4 already down. -/
theorem modifier_usage_report_spec_witness :
    (∀ u ∈ (buildReport [4]).drop 2, ¬(224 ≤ u ∧ u ≤ 231))
    ∧ 2 ∈ [1, 2, 4, 8, 16, 32, 64, 128]
    ∧ (∀ m2 b2, modifierBit m2 = some b2 → (m2 = 225 ↔ b2 = 2))
    ∧ ((handleKeyEvent [4] 42 1).2.map fun r => r.headD 0 &&& 2) = some 2
    ∧ ((handleKeyEvent [4] 42 0).2.map fun r => r.headD 0 &&& 2) = some 0
    ∧ modByte ((handleKeyEvent [4] 42 0).1) ||| 2 = modByte [4] ||| 2 :=
  modifier_usage_report_spec [4] 42 225 2 (by decide) (by decide)

lemma runLoop_processed_ge {σ ε : Type} (proc : σ → ε → σ × Option (List Nat))
    (cancelAt : Option Nat) :
    ∀ (events : List ε) (s : σ) (c n : Nat),
      n ≤ (runLoop proc cancelAt events s c n).2.2 := by
  intro events
  induction events with
  | nil =>
    intro s c n
    simp [runLoop]
  | cons e rest ih =>
    intro s c n
    by_cases h1 : c + 1 > 3
    · by_cases h2 : signalPresent cancelAt (n + 1) = true
      · simp only [runLoop]
        rw [if_pos h1, if_pos h2]
        dsimp only
        omega
      · simp only [runLoop]
        rw [if_pos h1, if_neg h2]
        have := ih (proc s e).1 0 (n + 1)
        dsimp only
        omega
    · simp only [runLoop]
      rw [if_neg h1]
      have := ih (proc s e).1 (c + 1) (n + 1)
      dsimp only
      omega

lemma runLoop_cancel_spec {σ ε : Type} (proc : σ → ε → σ × Option (List Nat))
    (cancelAt : Option Nat) :
    ∀ (events : List ε) (s : σ) (c n : Nat), c < 4 → n % 4 = c →
      (runLoop proc cancelAt events s c n).2.1 ≠ [] →
      (runLoop proc cancelAt events s c n).2.1 = [none]
      ∧ (runLoop proc cancelAt events s c n).1
          = emitted proc s (events.take ((runLoop proc cancelAt events s c n).2.2 - n))
      ∧ (runLoop proc cancelAt events s c n).2.2 % 4 = 0 := by
  intro events
  induction events with
  | nil =>
    intro s c n h4 hmod hne
    simp [runLoop] at hne
  | cons e rest ih =>
    intro s c n h4 hmod hne
    by_cases h1 : c + 1 > 3
    · by_cases h2 : signalPresent cancelAt (n + 1) = true
      · simp only [runLoop] at hne ⊢
        rw [if_pos h1, if_pos h2] at hne ⊢
        dsimp only at hne ⊢
        refine ⟨rfl, ?_, by omega⟩
        have hone : n + 1 - n = 1 := by omega
        rw [hone, List.take_succ_cons, List.take_zero]
        simp [emitted]
      · simp only [runLoop] at hne ⊢
        rw [if_pos h1, if_neg h2] at hne ⊢
        dsimp only at hne ⊢
        obtain ⟨ho, hr, hp⟩ := ih (proc s e).1 0 (n + 1) (by omega) (by omega) hne
        have hge := runLoop_processed_ge proc cancelAt rest (proc s e).1 0 (n + 1)
        refine ⟨ho, ?_, hp⟩
        have hn : (runLoop proc cancelAt rest (proc s e).1 0 (n + 1)).2.2 - n
            = ((runLoop proc cancelAt rest (proc s e).1 0 (n + 1)).2.2 - (n + 1)) + 1 := by
          omega
        rw [hn, List.take_succ_cons]
        rw [show emitted proc s
              (e :: rest.take
                ((runLoop proc cancelAt rest (proc s e).1 0 (n + 1)).2.2 - (n + 1)))
            = (proc s e).2.toList
              ++ emitted proc (proc s e).1
                  (rest.take
                    ((runLoop proc cancelAt rest (proc s e).1 0 (n + 1)).2.2 - (n + 1)))
          from rfl]
        rw [hr]
    · simp only [runLoop] at hne ⊢
      rw [if_neg h1] at hne ⊢
      dsimp only at hne ⊢
      obtain ⟨ho, hr, hp⟩ := ih (proc s e).1 (c + 1) (n + 1) (by omega) (by omega) hne
      have hge := runLoop_processed_ge proc cancelAt rest (proc s e).1 (c + 1) (n + 1)
      refine ⟨ho, ?_, hp⟩
      have hn : (runLoop proc cancelAt rest (proc s e).1 (c + 1) (n + 1)).2.2 - n
          = ((runLoop proc cancelAt rest (proc s e).1 (c + 1) (n + 1)).2.2 - (n + 1)) + 1 := by
        omega
      rw [hn, List.take_succ_cons]
      rw [show emitted proc s
            (e :: rest.take
              ((runLoop proc cancelAt rest (proc s e).1 (c + 1) (n + 1)).2.2 - (n + 1)))
          = (proc s e).2.toList
            ++ emitted proc (proc s e).1
                (rest.take
                  ((runLoop proc cancelAt rest (proc s e).1 (c + 1) (n + 1)).2.2 - (n + 1)))
        from rfl]
      rw [hr]

/-- C7: the handler loop checks the cancellation channel non-blockingly
only every 4th processed event (an observation happens at an event count
divisible by 4); in every execution in which it observes a delivered
signal, the reports it has enqueued are exactly those of the events
processed up to that observation — none after it — and it sends exactly
one value on its outcome channel, the `nil` outcome `none`. -/
theorem handler_cancellation_spec {σ ε : Type} (proc : σ → ε → σ × Option (List Nat))
    (cancelAt : Option Nat) (events : List ε) (s : σ)
    (hobs : (runHandlerLoop proc cancelAt events s).2.1 ≠ []) :
    (runHandlerLoop proc cancelAt events s).2.1 = [none]
    ∧ (runHandlerLoop proc cancelAt events s).1
        = emitted proc s (events.take ((runHandlerLoop proc cancelAt events s).2.2))
    ∧ (runHandlerLoop proc cancelAt events s).2.2 % 4 = 0 := by
  have h := runLoop_cancel_spec proc cancelAt events s 0 0 (by omega) (by omega) hobs
  simpa [runHandlerLoop] using h

/-- C7 (witness): the keyboard handler over four concrete events with the
cancellation signal delivered before the first checkpoint. -/
theorem handler_cancellation_spec_witness :
    (runHandlerLoop keyboardStep (some 0) [(30, 1), (30, 0), (30, 1), (30, 0)]
      ([] : List Nat)).2.1 = [none]
    ∧ (runHandlerLoop keyboardStep (some 0) [(30, 1), (30, 0), (30, 1), (30, 0)]
        ([] : List Nat)).1
      = emitted keyboardStep []
          ([(30, 1), (30, 0), (30, 1), (30, 0)].take
            ((runHandlerLoop keyboardStep (some 0) [(30, 1), (30, 0), (30, 1), (30, 0)]
              ([] : List Nat)).2.2))
    ∧ (runHandlerLoop keyboardStep (some 0) [(30, 1), (30, 0), (30, 1), (30, 0)]
        ([] : List Nat)).2.2 % 4 = 0 :=
  handler_cancellation_spec keyboardStep (some 0) [(30, 1), (30, 0), (30, 1), (30, 0)]
    [] (by decide)

end HidProxy
